import Mathlib

/-!
Shallow embedding of the Telegram mini-app form controller
(src/webapp/app.js; src/unnamed/part_000 is a near-identical earlier
variant of the same script).  The embedding models, from the source:

* the session/progress coordinator: `showProcessing`, `updateProgress`,
  `showSuccess`, `showError` and the window `message` event listener
  (app.js lines 214-285);
* the form controller: the count input / range slider sync handlers
  (lines 59-70) and `validateForm` (lines 167-189);
* the shortcut store: `saveGroup` (lines 125-141), `selectGroup`
  (lines 144-152), `deleteGroup` (lines 155-164), with `localStorage`
  modelled as the parsed content of the single key `vk_saved_groups`;
* the rendering path `renderSavedGroups` / `escapeHtml` (lines 81-109).

Host-provided primitives (JSON.parse, parseInt, new Date, the DOM
escaping round trip, Array.prototype.splice) are modelled by explicit
Lean functions following their ECMAScript / DOM semantics, with
comments at each definition.
-/

/-- A parsed JSON value, as produced by the host's JSON.parse inside the
message event listener (app.js line 272).  Numbers are modelled as
integers: every numeric field of the inbound interface
(current, total, count) is specified as an integer. -/
inductive Json where
  | str (text : String)
  | num (value : Int)
  | bool (flag : Bool)
  | null
  | arr (items : List Json)
  | obj (entries : List (String × Json))

/-- JS property read on a parsed JSON value: an object yields its field
(later duplicate keys overwrite earlier ones, as in JSON.parse), any
other value yields no field (undefined / a caught TypeError on null,
which the surrounding try swallows, app.js lines 271-283). -/
def getField (j : Json) (k : String) : Option Json :=
  match j with
  | .obj fields => fields.foldl (fun acc p => if p.1 = k then some p.2 else acc) none
  | _ => none

/-- The value of message.type when it is a string (the dispatch on
app.js lines 274-278 uses strict equality against string literals, so
only a string type field can select a branch). -/
def typeTag (j : Json) : Option String :=
  match getField j "type" with
  | some (.str s) => some s
  | _ => none

/-- A numeric message field: some n when the field is present and a
number, none when it is absent (undefined).  Non-numeric field values
are folded into none as well; the inbound interface carries integers
there. -/
def getIntField (j : Json) (k : String) : Option Int :=
  match getField j k with
  | some (.num n) => some n
  | _ => none

mutual
/-- JS template-literal stringification of a parsed JSON value, used by
the status texts (app.js lines 235, 244, 260).  Arrays join their
elements with commas and a plain object prints as its object tag,
following Array.prototype.toString / Object.prototype.toString. -/
def jsonToString : Json → String
  | .null => "null"
  | .bool true => "true"
  | .bool false => "false"
  | .num n => toString n
  | .str s => s
  | .arr xs => jsonListToString xs
  | .obj _ => "[object Object]"

def jsonListToString : List Json → String
  | [] => ""
  | [x] => jsonToString x
  | x :: rest => jsonToString x ++ "," ++ jsonListToString rest
end

/-- Stringification of a possibly-missing value: an undefined field
interpolates as the text undefined. -/
def jsDisplay : Option Json → String
  | none => "undefined"
  | some j => jsonToString j

/-- ECMAScript truthiness of a possibly-missing JSON value, for the
fallback `message.message || generic` on app.js line 260. -/
def jsTruthy : Option Json → Bool
  | none => false
  | some .null => false
  | some (.bool b) => b
  | some (.num n) => n != 0
  | some (.str s) => s != ""
  | some (.arr _) => true
  | some (.obj _) => true

/-- The primary action control's click handler currently bound via
mainButton.onClick: either handleSubmit (bound at startup, app.js
line 19) or the reset callback bound inside showSuccess (lines
248-251). -/
inductive ClickHandler where
  | submitHandler
  | successReset
deriving DecidableEq, Repr

/-- The DOM-visible session state touched by the session/progress
coordinator: the status container's classes, the status icon and text,
the progress bar (its width's numeric percentage; the code writes the
percent followed by a percent sign, app.js line 234, and none models a
NaN width), the progress counter text, and the primary action control.
-/
structure UIState where
  statusHidden : Bool
  statusProcessing : Bool
  statusSuccess : Bool
  statusError : Bool
  statusIcon : String
  statusText : String
  progressPercent : Option ℚ
  progressText : String
  mainButtonVisible : Bool
  mainButtonText : String
  mainButtonHandler : ClickHandler
deriving DecidableEq, Repr

/-- updateProgress (app.js lines 232-236): percent is
current/total*100 when total > 0 and 0 otherwise (an absent total
compares false with 0, yielding percent 0); the counter text
interpolates both raw fields.  An absent current with a positive total
gives a NaN percent, modelled as none. -/
def updateProgress (current total : Option Int) (st : UIState) : UIState :=
  let percent : Option ℚ :=
    match total with
    | some t =>
      if 0 < t then
        match current with
        | some c => some ((c : ℚ) / (t : ℚ) * 100)
        | none => none
      else some 0
    | none => some 0
  { st with
    progressPercent := percent
    progressText :=
      (match current with | some c => toString c | none => "undefined") ++ "/" ++
      (match total with | some t => toString t | none => "undefined") }

/-- The callback bound to the main button inside showSuccess (app.js
lines 248-251): hide the status container and restore the start label.
-/
def successResetClick (st : UIState) : UIState :=
  { st with
    statusHidden := true
    mainButtonText := "🚀 Начать копирование" }

/-- showSuccess (app.js lines 239-252): swap the status classes to
success, set the success icon and the copied-count text, relabel the
main button, show it and re-arm its click handler with the reset
callback.  The hidden class is not touched. -/
def showSuccess (count : Option Json) (st : UIState) : UIState :=
  { st with
    statusProcessing := false
    statusError := false
    statusSuccess := true
    statusIcon := "✅"
    statusText := "Скопировано " ++ jsDisplay count ++ " постов!"
    mainButtonText := "🚀 Копировать ещё"
    mainButtonVisible := true
    mainButtonHandler := .successReset }

/-- showError (app.js lines 255-264): swap the status classes to error,
set the error icon, show the reported message or the generic fallback
when the message field is falsy, relabel the main button and show it.
The bound click handler is left as it was. -/
def showError (msg : Option Json) (st : UIState) : UIState :=
  { st with
    statusProcessing := false
    statusSuccess := false
    statusError := true
    statusIcon := "❌"
    statusText := if jsTruthy msg then jsDisplay msg else "Ошибка копирования"
    mainButtonText := "🚀 Попробовать снова"
    mainButtonVisible := true }

/-- The dispatch inside the message listener's try block (app.js lines
274-280): a string type field selects one of the three branches, any
other parsed value falls through with no effect. -/
def handleParsed (j : Json) (st : UIState) : UIState :=
  if typeTag j = some "progress" then
    updateProgress (getIntField j "current") (getIntField j "total") st
  else if typeTag j = some "success" then
    showSuccess (getField j "count") st
  else if typeTag j = some "error" then
    showError (getField j "message") st
  else st

/-- The payload of a message event as the listener observes it: a
non-string payload, a string JSON.parse throws on (the catch ignores
it), or a string parsing to a JSON value. -/
inductive EventData where
  | nonString
  | strNoParse
  | strParsed (j : Json)

/-- The window message event listener (app.js lines 267-285): only
string payloads are considered, parse failures are swallowed, parsed
values are dispatched. -/
def handleMessage : EventData → UIState → UIState
  | .nonString, st => st
  | .strNoParse, st => st
  | .strParsed j, st => handleParsed j st

/-- ECMAScript String.prototype.trim, as called on app.js lines 126,
127, 168 and 199: strip leading and trailing whitespace. -/
def jsTrim (s : String) : String :=
  ⟨((s.data.dropWhile Char.isWhitespace).reverse.dropWhile Char.isWhitespace).reverse⟩

/-- The decimal digit value of a character, for the ECMAScript parseInt
model. -/
def digitVal : Char → Option Nat := fun c =>
  if c.isDigit then some (c.toNat - '0'.toNat) else none

/-- The hexadecimal digit value of a character. -/
def hexVal : Char → Option Nat := fun c =>
  if c.isDigit then some (c.toNat - '0'.toNat)
  else if 'a' ≤ c ∧ c ≤ 'f' then some (c.toNat - 'a'.toNat + 10)
  else if 'A' ≤ c ∧ c ≤ 'F' then some (c.toNat - 'A'.toNat + 10)
  else none

/-- Accumulate the maximal run of digits at the head of the character
list; parsing stops at the first character that is not a digit of the
base, as parseInt does. -/
def parseDigitsAux (valOf : Char → Option Nat) (base : Nat) : List Char → Nat → Nat
  | [], acc => acc
  | c :: rest, acc =>
    match valOf c with
    | some v => parseDigitsAux valOf base rest (acc * base + v)
    | none => acc

/-- ECMAScript parseInt with no radix argument, as called on app.js
lines 66 and 182: skip leading whitespace, read an optional sign, honor
a hexadecimal prefix, then parse the maximal digit run and ignore any
trailing garbage; no digits at all yields NaN, modelled as none. -/
def parseIntJS (s : String) : Option Int :=
  let cs := s.data.dropWhile Char.isWhitespace
  let signed : Bool × List Char :=
    match cs with
    | '-' :: rest => (true, rest)
    | '+' :: rest => (false, rest)
    | _ => (false, cs)
  let based : (Char → Option Nat) × Nat × List Char :=
    match signed.2 with
    | '0' :: 'x' :: rest => (hexVal, 16, rest)
    | '0' :: 'X' :: rest => (hexVal, 16, rest)
    | _ => (digitVal, 10, signed.2)
  match based.2.2 with
  | [] => none
  | c :: rest =>
    match based.1 c with
    | some v =>
      let m := parseDigitsAux based.1 based.2.1 rest v
      some (if signed.1 then -(m : Int) else (m : Int))
    | none => none

/-- Gregorian leap year. -/
def isLeapYear (y : Nat) : Bool :=
  (y % 4 = 0 && y % 100 != 0) || y % 400 = 0

/-- Days in a month of the Gregorian calendar. -/
def daysInMonth (y m : Nat) : Nat :=
  if m = 2 then (if isLeapYear y then 29 else 28)
  else if m = 4 || m = 6 || m = 9 || m = 11 then 30
  else 31

/-- The value new Date(s) yields for the value of a date form field
(app.js lines 169-170): such a field holds either the empty string or a
date in four-digit-year ISO form, and an ISO date string with
out-of-range components gives an Invalid Date, whose time value is NaN,
modelled as none.  Only the order of the two parsed dates is ever used
(the comparison on line 177), so a valid date is encoded by the
strictly monotone ordinal y*10000 + m*100 + d rather than by its
millisecond timestamp; the encoding orders two valid dates exactly as
their timestamps do. -/
def parseDateJS (s : String) : Option Int :=
  match s.data with
  | [y1, y2, y3, y4, '-', m1, m2, '-', d1, d2] =>
    if y1.isDigit && y2.isDigit && y3.isDigit && y4.isDigit
        && m1.isDigit && m2.isDigit && d1.isDigit && d2.isDigit then
      let y := ((y1.toNat - '0'.toNat) * 1000 + (y2.toNat - '0'.toNat) * 100
        + (y3.toNat - '0'.toNat) * 10 + (y4.toNat - '0'.toNat))
      let m := (m1.toNat - '0'.toNat) * 10 + (m2.toNat - '0'.toNat)
      let d := (d1.toNat - '0'.toNat) * 10 + (d2.toNat - '0'.toNat)
      if 1 ≤ m ∧ m ≤ 12 ∧ 1 ≤ d ∧ d ≤ daysInMonth y m then
        some ((y * 10000 + m * 100 + d : Nat) : Int)
      else none
    else none
  | _ => none

/-- The comparison startDate > endDate on app.js line 177: a Date
compares via its time value, and any comparison involving the NaN time
value of an Invalid Date is false. -/
def jsDateGt (a b : Option Int) : Bool :=
  match a, b with
  | some x, some y => decide (y < x)
  | _, _ => false

/-- The form fields the embedded handlers read and write: the groupId
text input, the two date inputs (as their string values), the count
text input (as its string value) and the paired range element (as its
numeric value; a range element's value is always a number within its
bounds). -/
structure FormState where
  groupId : String
  startDate : String
  endDate : String
  count : String
  countRange : Int
deriving DecidableEq, Repr

/-- Modelled from the spec: the markup for the paired range control is
not under src/ (only app.js, which looks the element up by id, is).
The spec fixes the count interval to [1,100] and requires the pair to
stay inside it, so the range element's min/max attributes are modelled
as 1 and 100; a range element clamps every assigned or dragged value
into its bounds. -/
def rangeElementClamp (v : Int) : Int :=
  max 1 (min 100 v)

/-- An input event on the range slider (app.js lines 61-63): the
element has already clamped the dragged value into its bounds, and the
handler copies the element's value into the count text input verbatim.
-/
def rangeEdit (v : Int) (f : FormState) : FormState :=
  let f1 := { f with countRange := rangeElementClamp v }
  { f1 with count := toString f1.countRange }

/-- An input event on the count text input (app.js lines 65-70): the
typed text is parsed with parseInt, a falsy result (NaN or 0) falls
back to 1, the value is clamped into [1,100] and written into both
controls. -/
def countEdit (s : String) (f : FormState) : FormState :=
  let f1 := { f with count := s }
  let value0 : Int :=
    match parseIntJS f1.count with
    | some n => if n = 0 then 1 else n
    | none => 1
  let value := max 1 (min 100 value0)
  { f1 with countRange := rangeElementClamp value, count := toString value }

/-- The taxonomy of the three alerts validateForm can raise (app.js
lines 172-186). -/
inductive ValidationError where
  | emptyGroupId
  | dateRangeInverted
  | countOutOfRange
deriving DecidableEq, Repr

/-- validateForm (app.js lines 167-189): trims the groupId, rejects an
empty one; parses both dates and rejects startDate > endDate under the
NaN-tolerant comparison; parses the count and rejects NaN or a value
outside [1,100]; the first failing check alone is reported, and none
means the function returned true. -/
def validateForm (f : FormState) : Option ValidationError :=
  let groupId := jsTrim f.groupId
  let startDate := parseDateJS f.startDate
  let endDate := parseDateJS f.endDate
  if groupId = "" then some .emptyGroupId
  else if jsDateGt startDate endDate then some .dateRangeInverted
  else
    match parseIntJS f.count with
    | none => some .countOutOfRange
    | some n => if n < 1 ∨ 100 < n then some .countOutOfRange else none

/-- A saved shortcut: a named community identifier (app.js line 134). -/
structure Shortcut where
  name : String
  id : String
deriving DecidableEq, Repr

/-- The shortcut store's state: the in-memory savedGroups array (app.js
line 45) and the persisted value under the vk_saved_groups localStorage
key, modelled in parsed form (the persisted copy is the JSON
serialization of the list it holds, and JSON round-trips a list of
string pairs). -/
structure StoreState where
  savedGroups : List Shortcut
  storage : Option (List Shortcut)
deriving DecidableEq, Repr

/-- The startup read on app.js line 45:
JSON.parse(localStorage.getItem(key) or the empty-array literal), i.e.
the persisted list when present and the empty list otherwise. -/
def loadGroups (storage : Option (List Shortcut)) : List Shortcut :=
  storage.getD []

/-- saveGroup (app.js lines 125-141): trim both input values; if either
is empty, alert and return with no mutation; otherwise push the pair
onto savedGroups and rewrite the persisted copy before returning. -/
def saveGroup (nameValue idValue : String) (st : StoreState) : StoreState :=
  let name := jsTrim nameValue
  let id := jsTrim idValue
  if name = "" ∨ id = "" then st
  else
    let groups := st.savedGroups ++ [⟨name, id⟩]
    { savedGroups := groups, storage := some groups }

/-- JavaScript array indexing as used on app.js line 145: a negative or
too-large index reads undefined, modelled as none. -/
def jsArrayGet (l : List Shortcut) : Int → Option Shortcut
  | .ofNat n => l.get? n
  | .negSucc _ => none

/-- The observable outcome of a selectGroup call: whether the handler
threw, and the groupId field's value afterwards. -/
structure SelectOutcome where
  raised : Bool
  groupIdField : String
deriving DecidableEq, Repr

/-- selectGroup (app.js lines 144-152): read savedGroups[index] and
copy its id into the groupId input.  For an out-of-bounds index the
indexing yields undefined and reading its id property throws a
TypeError before anything is written, so the field keeps its previous
value and the error propagates out of the handler. -/
def selectGroup (groups : List Shortcut) (index : Int) (field : String) : SelectOutcome :=
  match jsArrayGet groups index with
  | some group => { raised := false, groupIdField := group.id }
  | none => { raised := true, groupIdField := field }

/-- Array.prototype.splice(start, 1) as called on app.js line 158: a
negative start counts back from the end (clamped at 0), a start past
the end removes nothing, and otherwise the single element at the start
position is removed. -/
def jsSplice1 (l : List Shortcut) (i : Int) : List Shortcut :=
  let len : Int := l.length
  let start : Int := if i < 0 then max (len + i) 0 else min i len
  l.take start.toNat ++ l.drop (start.toNat + 1)

/-- deleteGroup (app.js lines 155-164): the confirmation dialog's
callback receives the user's answer; declining does nothing, confirming
splices the entry out and rewrites the persisted copy. -/
def deleteGroup (confirmed : Bool) (index : Int) (st : StoreState) : StoreState :=
  if confirmed then
    let groups := jsSplice1 st.savedGroups index
    { savedGroups := groups, storage := some groups }
  else st

/-- The expansion of a single character in the DOM round trip
escapeHtml performs (app.js lines 105-109): assigning textContent and
reading innerHTML serializes the text node, escaping exactly the
characters that are markup-significant in element content. -/
def escapeChar (c : Char) : List Char :=
  if c = '&' then ['&', 'a', 'm', 'p', ';']
  else if c = '<' then ['&', 'l', 't', ';']
  else if c = '>' then ['&', 'g', 't', ';']
  else [c]

/-- escapeHtml (app.js lines 105-109). -/
def escapeHtml (text : String) : String :=
  ⟨text.data.flatMap escapeChar⟩

/-- The fixed template text of one list item (app.js lines 91-101),
split at the five interpolation points. -/
def itemA : String :=
  "\n        <div class=\"group-item\" onclick=\"selectGroup("

def itemB : String :=
  ")\">\n            <div class=\"group-info\">\n                <div class=\"group-name\">"

def itemC : String :=
  "</div>\n                <div class=\"group-id\">"

def itemD : String :=
  "</div>\n            </div>\n            <div class=\"group-actions\">\n                <button class=\"btn-delete\" onclick=\"event.stopPropagation(); deleteGroup("

def itemE : String :=
  ")\">🗑</button>\n            </div>\n        </div>\n    "

/-- One rendered list item (the template literal on app.js lines
91-101): the index is interpolated into the two onclick attributes and
the user-supplied name and id pass through escapeHtml before insertion.
-/
def groupItemHTML (index : Nat) (group : Shortcut) : String :=
  itemA ++ toString index ++ itemB ++ escapeHtml group.name ++ itemC
    ++ escapeHtml group.id ++ itemD ++ toString index ++ itemE

/-- Concatenation of the rendered items, modelling the join with the
empty separator on app.js line 101. -/
def concatAll : List String → String
  | [] => ""
  | s :: rest => s ++ concatAll rest

/-- The innerHTML written into the list container by renderSavedGroups
when the list is non-empty (app.js lines 91-101). -/
def groupsListHTML (groups : List Shortcut) : String :=
  concatAll (groups.enum.map (fun p => groupItemHTML p.1 p.2))

/-- The UI state showProcessing (app.js lines 215-229) leaves behind:
status visible with the processing class, in-progress glyph and text,
progress at zero, main button hidden.  Used as a concrete sample state.
-/
def demoProcessingState : UIState :=
  { statusHidden := false
    statusProcessing := true
    statusSuccess := false
    statusError := false
    statusIcon := "⏳"
    statusText := "Копирование постов..."
    progressPercent := some 0
    progressText := "0/0"
    mainButtonVisible := false
    mainButtonText := "🚀 Начать копирование"
    mainButtonHandler := .submitHandler }

/-- A concrete Idle presentation: status area hidden, start label on
the visible main button, the startup submit handler bound. -/
def demoIdleState : UIState :=
  { statusHidden := true
    statusProcessing := false
    statusSuccess := false
    statusError := false
    statusIcon := "⏳"
    statusText := ""
    progressPercent := some 0
    progressText := "0/0"
    mainButtonVisible := true
    mainButtonText := "🚀 Начать копирование"
    mainButtonHandler := .submitHandler }

/-- A concrete inbound success notification carrying count 7. -/
def successMsg7 : Json :=
  .obj [("type", .str "success"), ("count", .num 7)]

/-- A concrete store state holding one shortcut, persisted. -/
def demoStore : StoreState :=
  { savedGroups := [⟨"a", "0"⟩], storage := some [⟨"a", "0"⟩] }

/-- A concrete valid form: non-empty groupId, one-week window, count
10. -/
def demoForm : FormState :=
  { groupId := "club123"
    startDate := "2024-01-01"
    endDate := "2024-01-08"
    count := "10"
    countRange := 10 }

/-- Scanner over a character list: true when some markup-opening
bracket is immediately followed by the letter s (the start of a script
tag); the flag records whether the character preceding the list was
such a bracket. -/
def ltsScan (afterLt : Bool) : List Char → Bool
  | [] => false
  | c :: rest => (afterLt && c == 's') || ltsScan (c == '<') rest

/-- Whether the last character of the list is the markup-opening
bracket; for the empty list, the incoming flag is the answer. -/
def lastLt (afterLt : Bool) : List Char → Bool
  | [] => afterLt
  | c :: rest => lastLt (c == '<') rest

/-- C4: a non-string payload, a string JSON.parse rejects, and a parsed
message whose type tag is none of progress, success, error all leave
the entire modelled session state (status classes, icon and text,
progress indicator, action control) unchanged, and no error escapes the
handler. -/
theorem malformed_message_is_noop (st : UIState) :
    handleMessage .nonString st = st
    ∧ handleMessage .strNoParse st = st
    ∧ ∀ j : Json, typeTag j ≠ some "progress" → typeTag j ≠ some "success" →
        typeTag j ≠ some "error" → handleMessage (.strParsed j) st = st := by
  refine ⟨rfl, rfl, fun j h1 h2 h3 => ?_⟩
  simp [handleMessage, handleParsed, h1, h2, h3]

/-- Witness: a parsed message with an unrecognized type tag leaves a
concrete processing state untouched. -/
theorem malformed_message_is_noop_witness :
    handleMessage (.strParsed (.obj [("type", .str "unknown")])) demoProcessingState
      = demoProcessingState :=
  (malformed_message_is_noop demoProcessingState).2.2 (.obj [("type", .str "unknown")])
    (by decide) (by decide) (by decide)

/-- C10: the dispatch is not guarded on the discrete session state —
for every current state, a recognized tag fires its display function:
progress messages run the progress update, success messages run
showSuccess (leaving the success class set and the action control
visible), error messages run showError (leaving the error class set and
the action control visible). -/
theorem recognized_message_unguarded (st : UIState) (j : Json) :
    (typeTag j = some "progress" →
      handleMessage (.strParsed j) st
        = updateProgress (getIntField j "current") (getIntField j "total") st)
    ∧ (typeTag j = some "success" →
      handleMessage (.strParsed j) st = showSuccess (getField j "count") st
      ∧ (handleMessage (.strParsed j) st).statusSuccess = true
      ∧ (handleMessage (.strParsed j) st).mainButtonVisible = true)
    ∧ (typeTag j = some "error" →
      handleMessage (.strParsed j) st = showError (getField j "message") st
      ∧ (handleMessage (.strParsed j) st).statusError = true
      ∧ (handleMessage (.strParsed j) st).mainButtonVisible = true) := by
  refine ⟨fun h => ?_, fun h => ?_, fun h => ?_⟩ <;>
    simp [handleMessage, handleParsed, h, showSuccess, showError]

/-- Witness: a success message dispatched in the Idle state (status
hidden, nothing in progress) still runs showSuccess. -/
theorem recognized_message_unguarded_witness :
    handleMessage (.strParsed successMsg7) demoIdleState
      = showSuccess (some (.num 7)) demoIdleState :=
  ((recognized_message_unguarded demoIdleState successMsg7).2.1 (by decide)).1

/-- C8: a progress message with integer fields sets the displayed
percentage to current/total*100 when total is positive and to 0 when
total is 0, sets the textual counter to the two fields joined by a
slash, and changes nothing else: every status field, the discrete
classes and the action control keep their previous values. -/
theorem updateProgress_spec (c t : Int) (st : UIState) :
    (0 < t → (updateProgress (some c) (some t) st).progressPercent
      = some ((c : ℚ) * 100 / (t : ℚ)))
    ∧ (t = 0 → (updateProgress (some c) (some t) st).progressPercent = some 0)
    ∧ (updateProgress (some c) (some t) st).progressText = toString c ++ "/" ++ toString t
    ∧ (updateProgress (some c) (some t) st).statusHidden = st.statusHidden
    ∧ (updateProgress (some c) (some t) st).statusProcessing = st.statusProcessing
    ∧ (updateProgress (some c) (some t) st).statusSuccess = st.statusSuccess
    ∧ (updateProgress (some c) (some t) st).statusError = st.statusError
    ∧ (updateProgress (some c) (some t) st).statusIcon = st.statusIcon
    ∧ (updateProgress (some c) (some t) st).statusText = st.statusText
    ∧ (updateProgress (some c) (some t) st).mainButtonVisible = st.mainButtonVisible
    ∧ (updateProgress (some c) (some t) st).mainButtonText = st.mainButtonText
    ∧ (updateProgress (some c) (some t) st).mainButtonHandler = st.mainButtonHandler := by
  refine ⟨fun h => ?_, fun h => ?_, ?_, ?_, ?_, ?_, ?_, ?_, ?_, ?_, ?_, ?_⟩ <;>
    simp [updateProgress, *]
  · rw [div_mul_eq_mul_div]

/-- Witness: progress 7 of 10 displays 70 percent and the counter
7/10. -/
theorem updateProgress_spec_witness :
    (0 : Int) < 10
    ∧ (updateProgress (some 7) (some 10) demoProcessingState).progressPercent
      = some ((7 : ℚ) * 100 / (10 : ℚ)) :=
  ⟨by norm_num, (updateProgress_spec 7 10 demoProcessingState).1 (by norm_num)⟩

/-- C1 counterexample: selecting index 0 of the empty shortcut list is
not a silent no-op — reading the id property of the undefined lookup
result raises a TypeError. -/
theorem selectGroup_oob_not_silent :
    ¬ (selectGroup [] 0 "prev").raised = false := by decide

/-- C1 amended: for an index out of bounds of the shortcut list,
selectGroup writes nothing into the groupId field and changes no state,
but it is not silent — the handler raises a TypeError instead of
returning normally. -/
theorem selectGroup_oob (groups : List Shortcut) (index : Int) (field : String)
    (h : index < 0 ∨ (groups.length : Int) ≤ index) :
    (selectGroup groups index field).raised = true
    ∧ (selectGroup groups index field).groupIdField = field := by
  have hg : jsArrayGet groups index = none := by
    cases index with
    | ofNat n =>
      have hn : groups.length ≤ n := by
        rcases h with h | h
        · rw [Int.ofNat_eq_coe] at h; omega
        · rw [Int.ofNat_eq_coe] at h; exact_mod_cast h
      show groups.get? n = none
      exact List.get?_eq_none.mpr hn
    | negSucc m => rfl
  unfold selectGroup
  rw [hg]
  exact ⟨rfl, rfl⟩

/-- Witness: index 5 on the empty list raises and leaves the field as
it was. -/
theorem selectGroup_oob_witness :
    ((5 : Int) < 0 ∨ ((List.length ([] : List Shortcut) : Int) ≤ 5))
    ∧ (selectGroup [] 5 "prev").raised = true
    ∧ (selectGroup [] 5 "prev").groupIdField = "prev" :=
  ⟨Or.inr (by norm_num), (selectGroup_oob [] 5 "prev" (Or.inr (by norm_num))).1,
    (selectGroup_oob [] 5 "prev" (Or.inr (by norm_num))).2⟩

/-- C2 counterexample: a success notification processed while the
status area carries the hidden class (the Idle presentation) leaves it
hidden — showSuccess never removes the hidden class, so the status area
does not come to show the success display. -/
theorem success_in_idle_keeps_status_hidden :
    ¬ (handleMessage (.strParsed successMsg7) demoIdleState).statusHidden = false := by
  decide

/-- C2 amended: when a success notification is processed while the
status area is visible (as it is in the Processing state the spec's
transition starts from), the area shows the success glyph and the
reported count, the action control is re-shown and relabeled for
another copy, the reset callback is armed, and running that callback
restores the Idle presentation: status hidden and start label back.
If the status area is hidden when the notification arrives it stays
hidden, so the visibility proviso is necessary. -/
theorem showSuccess_transition (st : UIState) (n : Int) (h : st.statusHidden = false) :
    (handleMessage (.strParsed (.obj [("type", .str "success"), ("count", .num n)])) st).statusHidden = false
    ∧ (handleMessage (.strParsed (.obj [("type", .str "success"), ("count", .num n)])) st).statusSuccess = true
    ∧ (handleMessage (.strParsed (.obj [("type", .str "success"), ("count", .num n)])) st).statusProcessing = false
    ∧ (handleMessage (.strParsed (.obj [("type", .str "success"), ("count", .num n)])) st).statusError = false
    ∧ (handleMessage (.strParsed (.obj [("type", .str "success"), ("count", .num n)])) st).statusIcon = "✅"
    ∧ (handleMessage (.strParsed (.obj [("type", .str "success"), ("count", .num n)])) st).statusText
      = "Скопировано " ++ toString n ++ " постов!"
    ∧ (handleMessage (.strParsed (.obj [("type", .str "success"), ("count", .num n)])) st).mainButtonVisible = true
    ∧ (handleMessage (.strParsed (.obj [("type", .str "success"), ("count", .num n)])) st).mainButtonText
      = "🚀 Копировать ещё"
    ∧ (handleMessage (.strParsed (.obj [("type", .str "success"), ("count", .num n)])) st).mainButtonHandler
      = .successReset
    ∧ (successResetClick (handleMessage (.strParsed (.obj [("type", .str "success"), ("count", .num n)])) st)).statusHidden
      = true
    ∧ (successResetClick (handleMessage (.strParsed (.obj [("type", .str "success"), ("count", .num n)])) st)).mainButtonText
      = "🚀 Начать копирование" := by
  have htag : typeTag (.obj [("type", .str "success"), ("count", .num n)]) = some "success" := rfl
  have hcount : getField (.obj [("type", .str "success"), ("count", .num n)]) "count"
      = some (.num n) := rfl
  simp [handleMessage, handleParsed, htag, hcount, showSuccess, successResetClick,
    jsDisplay, jsonToString, h]

/-- Witness: processing success count 7 in the visible processing state
shows the success display and arms the reset callback. -/
theorem showSuccess_transition_witness :
    demoProcessingState.statusHidden = false
    ∧ (handleMessage (.strParsed (.obj [("type", .str "success"), ("count", .num 7)])) demoProcessingState).statusSuccess
      = true :=
  ⟨rfl, (showSuccess_transition demoProcessingState 7 rfl).2.1⟩

/-- C3: after an input event on either count control both controls hold
the same numeric value and that value lies in [1,100]: a range edit is
clamped by the element and mirrored verbatim into the text input, and a
text edit is parsed, clamped and written into both controls. -/
theorem count_controls_sync (f : FormState) :
    (∀ v : Int, (rangeEdit v f).countRange = max 1 (min 100 v)
      ∧ (rangeEdit v f).count = toString (max 1 (min 100 v))
      ∧ 1 ≤ (rangeEdit v f).countRange ∧ (rangeEdit v f).countRange ≤ 100)
    ∧ (∀ s : String, ∃ n : Int, (countEdit s f).countRange = n
      ∧ (countEdit s f).count = toString n ∧ 1 ≤ n ∧ n ≤ 100) := by
  constructor
  · intro v
    exact ⟨rfl, rfl, le_max_left _ _, max_le (by norm_num) (min_le_left _ _)⟩
  · intro s
    refine ⟨max 1 (min 100 (match parseIntJS s with
      | some n => if n = 0 then 1 else n
      | none => 1)), ?_, rfl, le_max_left _ _, max_le (by norm_num) (min_le_left _ _)⟩
    show rangeElementClamp _ = _
    dsimp only
    unfold rangeElementClamp
    omega

/-- C5: validateForm checks groupId first, then the date order, then
the count; it reports exactly the first failing check, never more than
one error, and succeeds precisely when all three checks pass.  The
date check is the code's NaN-tolerant comparison, which on two parsed
dates coincides with startDate being at most endDate. -/
theorem validateForm_spec (f : FormState) :
    (validateForm f = some .emptyGroupId ↔ jsTrim f.groupId = "")
    ∧ (validateForm f = some .dateRangeInverted ↔
        (jsTrim f.groupId ≠ ""
          ∧ jsDateGt (parseDateJS f.startDate) (parseDateJS f.endDate) = true))
    ∧ (validateForm f = some .countOutOfRange ↔
        (jsTrim f.groupId ≠ ""
          ∧ jsDateGt (parseDateJS f.startDate) (parseDateJS f.endDate) = false
          ∧ ¬ ∃ n : Int, parseIntJS f.count = some n ∧ 1 ≤ n ∧ n ≤ 100))
    ∧ (validateForm f = none ↔
        (jsTrim f.groupId ≠ ""
          ∧ jsDateGt (parseDateJS f.startDate) (parseDateJS f.endDate) = false
          ∧ ∃ n : Int, parseIntJS f.count = some n ∧ 1 ≤ n ∧ n ≤ 100))
    ∧ (∀ ds de : Int, parseDateJS f.startDate = some ds → parseDateJS f.endDate = some de →
        (jsDateGt (parseDateJS f.startDate) (parseDateJS f.endDate) = false ↔ ds ≤ de)) := by
  have hdate : ∀ ds de : Int, parseDateJS f.startDate = some ds →
      parseDateJS f.endDate = some de →
      (jsDateGt (parseDateJS f.startDate) (parseDateJS f.endDate) = false ↔ ds ≤ de) := by
    intro ds de hds hde
    rw [hds, hde]
    simp only [jsDateGt, decide_eq_false_iff_not]
    omega
  refine ⟨?_, ?_, ?_, ?_, hdate⟩ <;>
  · unfold validateForm
    by_cases h1 : jsTrim f.groupId = "" <;>
      cases h2 : jsDateGt (parseDateJS f.startDate) (parseDateJS f.endDate) <;>
        rcases h3 : parseIntJS f.count with _ | n <;>
          simp [h1, h2, h3]

/-- Witness: the concrete valid form passes validation, via the
characterization. -/
theorem validateForm_spec_witness :
    validateForm demoForm = none :=
  ((validateForm_spec demoForm).2.2.2.1).mpr
    ⟨by decide, by decide, 10, by decide, by decide, by decide⟩

/-- C6: saveGroup with either field blank after trimming changes
neither the in-memory list nor the persisted copy; with both non-empty
it appends exactly the one trimmed entry at the end, rewrites the
persisted copy to the very same list before returning, and a load of
the persisted copy yields that list, whose prefix is the prior list in
its original order. -/
theorem saveGroup_spec (nameValue idValue : String) (st : StoreState) :
    (jsTrim nameValue = "" ∨ jsTrim idValue = "" → saveGroup nameValue idValue st = st)
    ∧ (jsTrim nameValue ≠ "" → jsTrim idValue ≠ "" →
        (saveGroup nameValue idValue st).savedGroups
          = st.savedGroups ++ [⟨jsTrim nameValue, jsTrim idValue⟩]
        ∧ (saveGroup nameValue idValue st).storage
          = some (st.savedGroups ++ [⟨jsTrim nameValue, jsTrim idValue⟩])
        ∧ loadGroups (saveGroup nameValue idValue st).storage
          = st.savedGroups ++ [⟨jsTrim nameValue, jsTrim idValue⟩]
        ∧ (loadGroups (saveGroup nameValue idValue st).storage).take st.savedGroups.length
          = st.savedGroups) := by
  constructor
  · intro h
    simp [saveGroup, h]
  · intro h1 h2
    refine ⟨?_, ?_, ?_, ?_⟩ <;>
      simp [saveGroup, h1, h2, loadGroups, List.take_left]

/-- Witness: adding a padded name and id to the one-element store
appends their trimmed forms at the end and persists the result. -/
theorem saveGroup_spec_witness :
    jsTrim " x " ≠ "" ∧ jsTrim " 1 " ≠ ""
    ∧ (saveGroup " x " " 1 " demoStore).savedGroups
      = demoStore.savedGroups ++ [⟨jsTrim " x ", jsTrim " 1 "⟩] :=
  ⟨by decide, by decide,
    ((saveGroup_spec " x " " 1 " demoStore).2 (by decide) (by decide)).1⟩

/-- C7: declining the confirmation leaves both the in-memory and the
persisted list untouched; confirming removes exactly the entry at the
given in-range index, preserves every other entry in order (the result
is the eraseIdx of the original), and rewrites the persisted copy to
the new list. -/
theorem deleteGroup_spec (index : Int) (st : StoreState) :
    (deleteGroup false index st = st)
    ∧ (∀ n : Nat, index = n → n < st.savedGroups.length →
        (deleteGroup true index st).savedGroups = st.savedGroups.eraseIdx n
        ∧ (deleteGroup true index st).storage = some (st.savedGroups.eraseIdx n)) := by
  refine ⟨rfl, fun n hn hlt => ?_⟩
  subst hn
  have hs : jsSplice1 st.savedGroups n = st.savedGroups.eraseIdx n := by
    unfold jsSplice1
    have h1 : ¬ ((n : Int) < 0) := by omega
    have h2 : min (n : Int) (st.savedGroups.length : Int) = (n : Int) := by omega
    simp only [h1, if_false, h2, Int.toNat_ofNat]
    rw [List.eraseIdx_eq_take_drop_succ]
  simp [deleteGroup, hs]

/-- Witness: confirming deletion of index 0 in a two-element store
leaves the other entry, in order, in memory and persisted; declining is
the identity. -/
theorem deleteGroup_spec_witness :
    ((0 : Int) = ((0 : Nat) : Int))
    ∧ (0 : Nat) < ([⟨"a", "1"⟩, ⟨"b", "2"⟩] : List Shortcut).length
    ∧ (deleteGroup true 0 ⟨[⟨"a", "1"⟩, ⟨"b", "2"⟩], some [⟨"a", "1"⟩, ⟨"b", "2"⟩]⟩).savedGroups
      = ([⟨"a", "1"⟩, ⟨"b", "2"⟩] : List Shortcut).eraseIdx 0 :=
  ⟨rfl, by decide,
    ((deleteGroup_spec 0 ⟨[⟨"a", "1"⟩, ⟨"b", "2"⟩], some [⟨"a", "1"⟩, ⟨"b", "2"⟩]⟩).2 0 rfl
      (by decide)).1⟩

theorem ltsScan_append (b : Bool) (x y : List Char) :
    ltsScan b (x ++ y) = (ltsScan b x || ltsScan (lastLt b x) y) := by
  induction x generalizing b with
  | nil => simp [ltsScan, lastLt]
  | cons c rest ih => simp [ltsScan, lastLt, ih, Bool.or_assoc]

theorem lastLt_append (b : Bool) (x y : List Char) :
    lastLt b (x ++ y) = lastLt (lastLt b x) y := by
  induction x generalizing b with
  | nil => simp [lastLt]
  | cons c rest ih => simp [lastLt, ih]

theorem ltsScan_of_no_lt (l : List Char) (h : ∀ c ∈ l, c ≠ '<') :
    ltsScan false l = false ∧ lastLt false l = false := by
  induction l with
  | nil => exact ⟨rfl, rfl⟩
  | cons c rest ih =>
    have hc : c ≠ '<' := h c (by simp)
    have hrest := ih (fun x hx => h x (by simp [hx]))
    have hbeq : (c == '<') = false := by simp [hc]
    refine ⟨?_, ?_⟩ <;> simp [ltsScan, lastLt, hbeq, hrest.1, hrest.2]

theorem safe_append (x y : List Char) (b : Bool)
    (hx : ltsScan b x = false ∧ lastLt b x = false)
    (hy : ltsScan false y = false ∧ lastLt false y = false) :
    ltsScan b (x ++ y) = false ∧ lastLt b (x ++ y) = false := by
  rw [ltsScan_append, lastLt_append, hx.1, hx.2, hy.1, hy.2]
  simp

theorem escapeChar_mem (c x : Char) (h : x ∈ escapeChar c) : x ≠ '<' ∧ x ≠ '>' := by
  unfold escapeChar at h
  repeat' split at h
  · simp at h
    rcases h with h | h | h | h | h <;> subst h <;> exact ⟨by decide, by decide⟩
  · simp at h
    rcases h with h | h | h | h <;> subst h <;> exact ⟨by decide, by decide⟩
  · simp at h
    rcases h with h | h | h | h <;> subst h <;> exact ⟨by decide, by decide⟩
  · simp at h
    subst h
    refine ⟨?_, ?_⟩ <;> intro hx <;> simp_all

theorem escapeHtml_no_markup (s : String) :
    ∀ x ∈ (escapeHtml s).data, x ≠ '<' ∧ x ≠ '>' := by
  intro x hx
  have hx2 : x ∈ s.data.flatMap escapeChar := hx
  rw [List.mem_flatMap] at hx2
  obtain ⟨c, _, hc⟩ := hx2
  exact escapeChar_mem c x hc

theorem digitChar_safe (k : Nat) (hk : k < 10) :
    Nat.digitChar k ≠ '<' ∧ Nat.digitChar k ≠ 's' := by
  interval_cases k <;> exact ⟨by decide, by decide⟩

theorem toDigitsCore_safe (fuel : Nat) :
    ∀ (n : Nat) (acc : List Char), (∀ x ∈ acc, x ≠ '<' ∧ x ≠ 's') →
      ∀ x ∈ Nat.toDigitsCore 10 fuel n acc, x ≠ '<' ∧ x ≠ 's' := by
  induction fuel with
  | zero =>
    intro n acc hacc x hx
    rw [Nat.toDigitsCore] at hx
    exact hacc x hx
  | succ fuel ih =>
    intro n acc hacc x hx
    have hacc2 : ∀ y ∈ (Nat.digitChar (n % 10) :: acc), y ≠ '<' ∧ y ≠ 's' := by
      intro y hy
      rcases List.mem_cons.mp hy with h | h
      · subst h; exact digitChar_safe (n % 10) (Nat.mod_lt _ (by norm_num))
      · exact hacc y h
    rw [Nat.toDigitsCore] at hx
    by_cases hq : n / 10 = 0
    · rw [if_pos hq] at hx
      exact hacc2 x hx
    · rw [if_neg hq] at hx
      exact ih (n / 10) _ hacc2 x hx

theorem natRepr_safe (n : Nat) : ∀ x ∈ (toString n).data, x ≠ '<' ∧ x ≠ 's' := by
  intro x hx
  have hx2 : x ∈ Nat.toDigitsCore 10 (n + 1) n [] := hx
  exact toDigitsCore_safe (n + 1) n [] (by simp) x hx2

theorem groupItemHTML_safe (i : Nat) (g : Shortcut) (b : Bool) :
    ltsScan b (groupItemHTML i g).data = false
    ∧ lastLt b (groupItemHTML i g).data = false := by
  have hA : ltsScan b itemA.data = false ∧ lastLt b itemA.data = false := by
    cases b <;> exact ⟨by decide, by decide⟩
  have hB : ltsScan false itemB.data = false ∧ lastLt false itemB.data = false :=
    ⟨by decide, by decide⟩
  have hC : ltsScan false itemC.data = false ∧ lastLt false itemC.data = false :=
    ⟨by decide, by decide⟩
  have hD : ltsScan false itemD.data = false ∧ lastLt false itemD.data = false :=
    ⟨by decide, by decide⟩
  have hE : ltsScan false itemE.data = false ∧ lastLt false itemE.data = false :=
    ⟨by decide, by decide⟩
  have hidx : ltsScan false (toString i).data = false ∧ lastLt false (toString i).data = false :=
    ltsScan_of_no_lt _ (fun c hc => (natRepr_safe i c hc).1)
  have hname : ltsScan false (escapeHtml g.name).data = false
      ∧ lastLt false (escapeHtml g.name).data = false :=
    ltsScan_of_no_lt _ (fun c hc => (escapeHtml_no_markup g.name c hc).1)
  have hid : ltsScan false (escapeHtml g.id).data = false
      ∧ lastLt false (escapeHtml g.id).data = false :=
    ltsScan_of_no_lt _ (fun c hc => (escapeHtml_no_markup g.id c hc).1)
  exact safe_append _ _ b (safe_append _ _ b (safe_append _ _ b (safe_append _ _ b
    (safe_append _ _ b (safe_append _ _ b (safe_append _ _ b (safe_append _ _ b
      hA hidx) hB) hname) hC) hid) hD) hidx) hE

theorem concat_items_safe (ps : List (Nat × Shortcut)) :
    ltsScan false (concatAll (ps.map (fun p => groupItemHTML p.1 p.2))).data = false
    ∧ lastLt false (concatAll (ps.map (fun p => groupItemHTML p.1 p.2))).data = false := by
  induction ps with
  | nil => exact ⟨rfl, rfl⟩
  | cons p rest ih =>
    exact safe_append _ _ false (groupItemHTML_safe p.1 p.2 false) ih

theorem groupsListHTML_safe (gs : List Shortcut) :
    ltsScan false (groupsListHTML gs).data = false
    ∧ lastLt false (groupsListHTML gs).data = false :=
  concat_items_safe gs.enum

theorem not_infix_of_scan (l : List Char) (h : ltsScan false l = false) :
    ¬ List.IsInfix ['<', 's'] l := by
  intro hinf
  obtain ⟨u, v, huv⟩ := hinf
  have h2 : ∀ b, ltsScan b (['<', 's'] : List Char) = true := by
    intro b; cases b <;> decide
  rw [← huv, ltsScan_append, ltsScan_append] at h
  simp [h2] at h

/-- C9: user-supplied shortcut text cannot inject live markup into the
rendered list: every character escapeHtml emits differs from both
markup brackets, and in the full markup renderSavedGroups produces —
where both user fields pass through escapeHtml before insertion — the
character pair of an opening bracket followed by the letter s never
occurs, so in particular no script-tag substring occurs, for every
shortcut list. -/
theorem renderSavedGroups_escapes (gs : List Shortcut) :
    (∀ s : String, ∀ x ∈ (escapeHtml s).data, x ≠ '<' ∧ x ≠ '>')
    ∧ ¬ List.IsInfix ['<', 's'] (groupsListHTML gs).data
    ∧ ¬ List.IsInfix ("<script>".data) (groupsListHTML gs).data := by
  refine ⟨fun s => escapeHtml_no_markup s, ?_, ?_⟩
  · exact not_infix_of_scan _ (groupsListHTML_safe gs).1
  · intro hinf
    have hpair : List.IsInfix ['<', 's'] (groupsListHTML gs).data :=
      List.IsInfix.trans (by decide) hinf
    exact not_infix_of_scan _ (groupsListHTML_safe gs).1 hpair

/-- Witness: the markup rendered for a shortcut named with a script tag
contains no script-tag substring. -/
theorem renderSavedGroups_escapes_witness :
    ¬ List.IsInfix ("<script>".data) (groupsListHTML [⟨"<script>", "x"⟩]).data :=
  (renderSavedGroups_escapes [⟨"<script>", "x"⟩]).2.2
